import Mathlib

/-!
Verification of the btrfs GC-tree module (gc-tree.c / gc-tree.h).

The development shallowly embeds the module's four components:
  * the GC root router (`inode_gc_root`),
  * the GC item store (`add_gc_item`, `delete_gc_item`),
  * the reclaim worker (`gc_inode`, `gc_work_fn` with its drain loop),
  * the work dispatcher (`btrfs_queue_gc_work`).

Stateful C code is rendered as pure functions that thread the explicit
state (the root's item list, the per-root running flags) and emit an
event trace recording the observable effects: which tree mutation ran
under which transaction budget pointer, whether the transaction was
ended, whether the scratch path was released or freed.  External
collaborators (transaction join, truncation engine, allocators, the
exact-key search outcome) enter as oracle parameters, so a theorem
quantifying over them covers every behaviour of the environment.
Loops of the C code (the do/while retry loop of `gc_inode`, the drain
loop of `gc_work_fn`) are embedded with explicit fuel; theorems either
characterise one unfolding step or are stated for every fuel value.
-/

namespace GCTree

/-! ## Errno constants (Linux, as used by the module) -/

def ENOENT : Int := 2
def EAGAIN : Int := 11
def ENOMEM : Int := 12
def EINVAL : Int := 22
def ENOSPC : Int := 28

/-! ## Key schema

The numeric values of the objectid / item-type constants are fixed
on-disk identifiers defined outside the excerpt; nothing below depends
on their concrete values, only on the shape of the keys built from
them. -/

def BTRFS_GC_TREE_OBJECTID : Nat := 11
def BTRFS_ROOT_ITEM_KEY : Nat := 132
def BTRFS_GC_INODE_ITEM_KEY : Nat := 290

/-- A btrfs key, mirroring `struct btrfs_key`. -/
structure BtrfsKey where
  objectid : Nat
  type : Nat
  offset : Nat
  deriving DecidableEq, Repr

/-! ## Transaction budget pointers and effect events

`trans->block_rsv` can point at the caller-supplied temporary
reservation (`rsv`, set by the explicit assignments in `add_gc_item`
and `gc_inode`) or at the filesystem default
(`&fs_info->trans_block_rsv`).  `btrfs_gc_rsv_refill_and_join` is
external to the excerpt: modelled from the spec, it refills the
reservation and begins/joins a transaction; binding the transaction's
budget pointer to the temporary reservation is the callers' explicit
assignment, so a freshly joined transaction carries the filesystem
default budget pointer. -/

inductive RsvPtr where
  /-- The caller-supplied temporary reservation (`rsv`). -/
  | temp
  /-- The filesystem default budget (`&fs_info->trans_block_rsv`). -/
  | fsDefault
  deriving DecidableEq, Repr

/-- An observable effect of one of the module's functions. -/
inductive Event where
  /-- Run of `btrfs_insert_empty_item` with `trans->block_rsv` at `r`. -/
  | insertItem (r : RsvPtr) (key : BtrfsKey)
  /-- Run of `btrfs_del_item` with `trans->block_rsv` at `r`. -/
  | delItem (r : RsvPtr) (key : BtrfsKey)
  /-- Run of `btrfs_truncate_inode_items` with `trans->block_rsv` at `r`,
      truncating inode `ino` to size 0 from minimal item type 0. -/
  | truncate (r : RsvPtr) (ino : Nat)
  /-- Run of `btrfs_end_transaction` with `trans->block_rsv` at `r`. -/
  | endTrans (r : RsvPtr)
  /-- Run of `btrfs_release_path`. -/
  | releasePath
  /-- Run of `btrfs_free_path`. -/
  | freePath
  deriving DecidableEq, Repr

/-! ## GC item store: add_gc_item -/

/-- Environment of one `add_gc_item` call: outcome of
`btrfs_alloc_path`, of `btrfs_gc_rsv_refill_and_join` (`Except.error e`
for `IS_ERR(trans)` with `PTR_ERR(trans) = e`), and the return value of
`btrfs_insert_empty_item`. -/
structure AddEnv where
  pathAlloc : Bool
  join : Except Int Unit
  insertRet : Int
  deriving Repr

/-- Result of `add_gc_item`: the returned `int` and the event trace. -/
structure AddResult where
  ret : Int
  events : List Event
  deriving DecidableEq, Repr

/-- Shallow embedding of `add_gc_item` (gc-tree.c lines 27-51).
Allocates a path; joins a transaction after refilling the reservation;
sets `trans->block_rsv = rsv`; inserts the empty item; restores
`trans->block_rsv` to the filesystem default; ends the transaction;
frees the path. -/
def add_gc_item (env : AddEnv) (key : BtrfsKey) : AddResult :=
  if !env.pathAlloc then
    { ret := -ENOMEM, events := [] }
  else
    match env.join with
    | .error e => { ret := e, events := [.freePath] }
    | .ok _ =>
      { ret := env.insertRet
        events := [.insertItem .temp key, .endTrans .fsDefault, .freePath] }

/-! ## GC item store: delete_gc_item -/

/-- Environment of one `delete_gc_item` call: outcome of
`btrfs_gc_rsv_refill_and_join`, and an optional error injected by
`btrfs_search_slot` (`some e` with `e < 0` means the search itself
failed with `e`; `none` means the search completed and found the key
iff it is present in the root). -/
structure DeleteEnv where
  join : Except Int Unit
  searchErr : Option Int
  deriving Repr

/-- Return value of `btrfs_search_slot(trans, root, key, path, -1, 1)`
as seen by `delete_gc_item`: 0 when the exact key is found, 1 when it
is not, a negative errno on search failure. -/
def searchSlotRet (items : List BtrfsKey) (key : BtrfsKey)
    (searchErr : Option Int) : Int :=
  match searchErr with
  | some e => e
  | none => if key ∈ items then 0 else 1

/-- Result of `delete_gc_item` (the C function returns void): the
root's items after the call and the event trace. -/
structure DeleteResult where
  items : List BtrfsKey
  events : List Event
  deriving DecidableEq, Repr

/-- Shallow embedding of `delete_gc_item` (gc-tree.c lines 53-71).
Joins a transaction after refilling the reservation (returning silently
on join failure); searches for the exact key, mapping a not-found
result (`ret > 0`) to `-ENOENT`; returns on any negative result without
deleting, without releasing the path and without ending the
transaction; otherwise deletes the item, releases the path and ends the
transaction.  The function never assigns `trans->block_rsv`, so the
deletion runs under the budget pointer the join left in place. -/
def delete_gc_item (env : DeleteEnv) (items : List BtrfsKey)
    (key : BtrfsKey) : DeleteResult :=
  match env.join with
  | .error _ => { items := items, events := [] }
  | .ok _ =>
    let ret0 := searchSlotRet items key env.searchErr
    let ret := if ret0 > 0 then -ENOENT else ret0
    if ret < 0 then
      { items := items, events := [] }
    else
      { items := items.erase key
        events := [.delItem .fsDefault key, .releasePath, .endTrans .fsDefault] }

/-! ## Reclaim of one inode: gc_inode -/

/-- Environment of one iteration of the do/while retry loop of
`gc_inode`: outcome of `btrfs_gc_rsv_refill_and_join` and, when the
join succeeded, the return value of `btrfs_truncate_inode_items`. -/
structure GCStep where
  join : Except Int Unit
  truncRet : Int
  deriving Repr

/-- Shallow embedding of the do/while loop of `gc_inode` (gc-tree.c
lines 92-112), with iteration `i` driven by the oracle `steps` and an
explicit fuel bound (`none` means the fuel ran out before the loop
did).  Each iteration joins a transaction (a join failure breaks the
loop with that error), sets `trans->block_rsv = rsv`, runs the
truncation, restores the default budget, ends the transaction; the
loop repeats exactly while the truncation returned `-ENOSPC` or
`-EAGAIN`. -/
def gc_inode_loop (steps : Nat → GCStep) : Nat → Nat → Option (Int × List Event)
  | 0, _ => none
  | fuel + 1, i =>
    match (steps i).join with
    | .error e => some (e, [])
    | .ok _ =>
      let ret := (steps i).truncRet
      let evs : List Event := [.truncate .temp i, .endTrans .fsDefault]
      if ret = -ENOSPC ∨ ret = -EAGAIN then
        match gc_inode_loop steps fuel (i + 1) with
        | none => none
        | some (r, rest) => some (r, evs ++ rest)
      else
        some (ret, evs)

/-- Result of `gc_inode`: the returned `int`, the event trace, whether
`btrfs_err` was invoked, and whether `btrfs_put_root` ran. -/
structure GCInodeResult where
  ret : Int
  events : List Event
  logged : Bool
  putRoot : Bool
  deriving DecidableEq, Repr

/-- Shallow embedding of `gc_inode` (gc-tree.c lines 73-116).
`resolve` is the outcome of `btrfs_get_fs_root(fs_info,
key->objectid, true)`: an `-ENOENT` failure means the subvolume is
being deleted and is treated as success with nothing done; any other
failure is logged via `btrfs_err` and returned; on success the retry
loop runs and its result is returned after `btrfs_put_root`. -/
def gc_inode (resolve : Except Int Unit) (steps : Nat → GCStep)
    (fuel : Nat) : Option GCInodeResult :=
  match resolve with
  | .error e =>
    if e = -ENOENT then
      some { ret := 0, events := [], logged := false, putRoot := false }
    else
      some { ret := e, events := [], logged := true, putRoot := false }
  | .ok _ =>
    match gc_inode_loop steps fuel 0 with
    | none => none
    | some (r, evs) =>
      some { ret := r, events := evs, logged := false, putRoot := true }

/-! ## GC root router -/

/-- The part of `struct btrfs_fs_info` the router and dispatcher read:
the fixed count of global roots and the global-root resolver
(`btrfs_global_root`), modelled as a pure lookup from keys to root
handles (root handles are abstract, represented as `Nat`). -/
structure FsInfo where
  nr_global_roots : Nat
  globalRoot : BtrfsKey → Nat

/-- Shallow embedding of `btrfs_global_root`: a pure lookup of a fixed,
always-present internal container. -/
def btrfs_global_root (fs : FsInfo) (key : BtrfsKey) : Nat :=
  fs.globalRoot key

/-- The part of `struct btrfs_inode` the module reads: the inode number
(`btrfs_ino`) and the objectid of the owning subvolume root
(`inode->root->root_key.objectid`). -/
structure Inode where
  ino : Nat
  rootObjectid : Nat
  deriving DecidableEq, Repr

/-- Shallow embedding of `inode_gc_root` (gc-tree.c lines 15-25): look
up the global root at key `(BTRFS_GC_TREE_OBJECTID,
BTRFS_ROOT_ITEM_KEY, btrfs_ino(inode) % nr_global_roots)`. -/
def inode_gc_root (fs : FsInfo) (inode : Inode) : Nat :=
  btrfs_global_root fs
    { objectid := BTRFS_GC_TREE_OBJECTID
      type := BTRFS_ROOT_ITEM_KEY
      offset := inode.ino % fs.nr_global_roots }

/-- The root the dispatcher loop of `btrfs_queue_gc_work` resolves at
index `i` (gc-tree.c lines 176-191): the global root at key
`(BTRFS_GC_TREE_OBJECTID, BTRFS_ROOT_ITEM_KEY, i)`. -/
def dispatch_root_at (fs : FsInfo) (i : Nat) : Nat :=
  btrfs_global_root fs
    { objectid := BTRFS_GC_TREE_OBJECTID
      type := BTRFS_ROOT_ITEM_KEY
      offset := i }

/-- The GC item key built by `btrfs_add_inode_gc_item` (gc-tree.c lines
216-220): `(owning subvolume objectid, BTRFS_GC_INODE_ITEM_KEY,
inode number)`. -/
def inode_gc_key (inode : Inode) : BtrfsKey :=
  { objectid := inode.rootObjectid
    type := BTRFS_GC_INODE_ITEM_KEY
    offset := inode.ino }

/-- Shallow embedding of `btrfs_add_inode_gc_item` (gc-tree.c lines
213-223): the target root handle that receives the `add_gc_item` call,
together with the call's result. -/
def btrfs_add_inode_gc_item (fs : FsInfo) (inode : Inode)
    (env : AddEnv) : Nat × AddResult :=
  (inode_gc_root fs inode, add_gc_item env (inode_gc_key inode))

/-! ## Reclaim worker: gc_work_fn -/

/-- One entry of the drain-loop log: the key read by
`btrfs_first_item` and the `ret` produced by the switch on its item
type. -/
structure DrainEntry where
  key : BtrfsKey
  ret : Int
  deriving DecidableEq, Repr

/-- Shallow embedding of the drain loop of `gc_work_fn` (gc-tree.c
lines 137-156).  The root's items are a list whose head is the key
returned by `btrfs_first_item`.  Iteration `n`: while the filesystem
is closing and the root is non-empty, read the first key, release the
path, dispatch on the key type (`BTRFS_GC_INODE_ITEM_KEY` runs
`gc_inode`, whose return at iteration `n` is the oracle `gcRet n key`;
any other type asserts and yields `-EINVAL`), and only when `ret` is
zero call `delete_gc_item` with environment `delEnv n`.  The loop then
re-evaluates its condition; fuel bounds the number of iterations
modelled, returning the state reached when it runs out. -/
def drain_loop (closing : Bool) (gcRet : Nat → BtrfsKey → Int)
    (delEnv : Nat → DeleteEnv) :
    Nat → Nat → List BtrfsKey → List BtrfsKey × List DrainEntry
  | 0, _, items => (items, [])
  | fuel + 1, n, items =>
    if closing then
      match items with
      | [] => (items, [])
      | k :: rest =>
        let ret := if k.type = BTRFS_GC_INODE_ITEM_KEY then gcRet n k
                   else -EINVAL
        let items2 := if ret = 0 then
                        (delete_gc_item (delEnv n) (k :: rest) k).items
                      else k :: rest
        let next := drain_loop closing gcRet delEnv fuel (n + 1) items2
        (next.1, ⟨k, ret⟩ :: next.2)
    else (items, [])

/-- Result of one `gc_work_fn` run: the root's items on exit, the
drain-loop log, the root's `BTRFS_ROOT_GC_RUNNING` bit on exit, and
whether the temporary reservation and the scratch path were freed. -/
structure WorkerResult where
  items : List BtrfsKey
  log : List DrainEntry
  gcRunning : Bool
  rsvFreed : Bool
  pathFreed : Bool
  deriving Repr

/-- Shallow embedding of `gc_work_fn` (gc-tree.c lines 118-163).
If `btrfs_alloc_path` fails, jump to `out`; if `btrfs_alloc_block_rsv`
fails, free the path and jump to `out`; otherwise run the drain loop,
free the reservation and the path.  The `out` label clears
`BTRFS_ROOT_GC_RUNNING` in the root's state on every path, so the
result always carries `gcRunning = false`. -/
def gc_work_fn (pathAlloc rsvAlloc closing : Bool)
    (gcRet : Nat → BtrfsKey → Int) (delEnv : Nat → DeleteEnv)
    (fuel : Nat) (items : List BtrfsKey) : WorkerResult :=
  if !pathAlloc then
    { items := items, log := [], gcRunning := false
      rsvFreed := false, pathFreed := false }
  else if !rsvAlloc then
    { items := items, log := [], gcRunning := false
      rsvFreed := false, pathFreed := true }
  else
    let d := drain_loop closing gcRet delEnv fuel 0 items
    { items := d.1, log := d.2, gcRunning := false
      rsvFreed := true, pathFreed := true }

/-! ## Work dispatcher: btrfs_queue_gc_work -/

/-- Pointwise update of a `Nat`-indexed flag array. -/
def upd (f : Nat → Bool) (i : Nat) (v : Bool) : Nat → Bool :=
  fun j => if j = i then v else f j

/-- State threaded through the dispatcher loop: the per-root
`BTRFS_ROOT_GC_RUNNING` bits (indexed by the global-root index) and
the list of root indices whose work descriptor was enqueued. -/
structure DispatchState where
  flags : Nat → Bool
  queued : List Nat

/-- One iteration of the dispatcher loop of `btrfs_queue_gc_work`
(gc-tree.c lines 189-202) at root index `i`:
`test_and_set_bit(BTRFS_ROOT_GC_RUNNING)` skips the root when the bit
was already set; otherwise the bit is now set and, if the `gc_work`
descriptor allocation fails, the bit is cleared again and the root
skipped; otherwise the work is enqueued. -/
def dispatch_step (allocOk : Nat → Bool) (st : DispatchState)
    (i : Nat) : DispatchState :=
  if st.flags i then st
  else if allocOk i then
    { flags := upd st.flags i true, queued := st.queued ++ [i] }
  else
    { flags := upd (upd st.flags i true) i false, queued := st.queued }

/-- Shallow embedding of `btrfs_queue_gc_work` (gc-tree.c lines
172-203): a no-op unless the `EXTENT_TREE_V2` incompat feature is set,
a no-op when the filesystem is closing, otherwise the dispatcher loop
over root indices `0 .. nr_global_roots - 1`. -/
def btrfs_queue_gc_work (feature closing : Bool) (n : Nat)
    (allocOk : Nat → Bool) (flags0 : Nat → Bool) : DispatchState :=
  if !feature then { flags := flags0, queued := [] }
  else if closing then { flags := flags0, queued := [] }
  else (List.range n).foldl (dispatch_step allocOk) { flags := flags0, queued := [] }

/-! ## Mutual exclusion between dispatch and worker exit

The dispatcher and the workers synchronise over one atomic bit per
root: `test_and_set_bit(BTRFS_ROOT_GC_RUNNING)` in
`btrfs_queue_gc_work` (line 192), `clear_bit` on the descriptor
allocation failure path (line 196) and `clear_bit` at worker exit
(line 161).  The interleaving of any number of concurrent dispatcher
calls and worker exits is modelled as a transition system whose atomic
events are the individual bit operations; `pending i` counts
dispatchers that won the test-and-set for root `i` and have not yet
enqueued (or failed to allocate), `active i` counts enqueued workers
that have not yet exited. -/

/-- Pointwise update of a `Nat`-indexed counter array. -/
def updN (f : Nat → Nat) (i : Nat) (v : Nat) : Nat → Nat :=
  fun j => if j = i then v else f j

/-- Global synchronisation state: per-root running bit, dispatchers
between a won test-and-set and its enqueue/alloc-fail resolution, and
workers between enqueue and exit. -/
structure SyncState where
  flag : Nat → Bool
  pending : Nat → Nat
  active : Nat → Nat

/-- Initial state: no bit set, no dispatcher pending, no worker
active. -/
def initSync : SyncState :=
  { flag := fun _ => false, pending := fun _ => 0, active := fun _ => 0 }

/-- Atomic events of the dispatch / worker-exit protocol. -/
inductive SyncStep : SyncState → SyncState → Prop
  /-- The test-and-set of line 192 observes the bit false and sets it:
      this dispatcher now owns root `i`. -/
  | tas_success (s : SyncState) (i : Nat) (h : s.flag i = false) :
      SyncStep s { flag := upd s.flag i true
                   pending := updN s.pending i (s.pending i + 1)
                   active := s.active }
  /-- The test-and-set observes the bit already set: the dispatcher
      skips root `i` and nothing changes. -/
  | tas_skip (s : SyncState) (i : Nat) (h : s.flag i = true) :
      SyncStep s s
  /-- Descriptor allocation succeeded and `btrfs_queue_work` ran: the
      owning dispatcher hands root `i` to a worker (lines 194-201). -/
  | enqueue (s : SyncState) (i : Nat) (h : 1 ≤ s.pending i) :
      SyncStep s { flag := s.flag
                   pending := updN s.pending i (s.pending i - 1)
                   active := updN s.active i (s.active i + 1) }
  /-- Descriptor allocation failed: the owning dispatcher clears the
      bit and skips root `i` (lines 195-197). -/
  | alloc_fail (s : SyncState) (i : Nat) (h : 1 ≤ s.pending i) :
      SyncStep s { flag := upd s.flag i false
                   pending := updN s.pending i (s.pending i - 1)
                   active := s.active }
  /-- A worker for root `i` exits, clearing the bit (line 161). -/
  | worker_exit (s : SyncState) (i : Nat) (h : 1 ≤ s.active i) :
      SyncStep s { flag := upd s.flag i false
                   pending := s.pending
                   active := updN s.active i (s.active i - 1) }

/-- States reachable from `initSync` by any interleaving of the atomic
events. -/
inductive SyncReachable : SyncState → Prop
  | init : SyncReachable initSync
  | step {s t : SyncState} :
      SyncReachable s → SyncStep s t → SyncReachable t

/-! ## Helper definitions for the theorems -/

/-- Event classifier: is the event an `endTrans`. -/
def isEndTransEv : Event → Bool
  | .endTrans _ => true
  | _ => false

/-- Event classifier: is the event a `truncate`. -/
def isTruncateEv : Event → Bool
  | .truncate _ _ => true
  | _ => false

/-- Events emitted by `k` consecutive successful-join iterations of the
`gc_inode` retry loop starting at iteration index `i`. -/
def retryEvents (i : Nat) : Nat → List Event
  | 0 => []
  | k + 1 =>
    Event.truncate .temp i :: Event.endTrans .fsDefault :: retryEvents (i + 1) k

/-- A GC inode item key used in concrete counterexamples and
witnesses. -/
def gcKeyA : BtrfsKey :=
  { objectid := 5, type := BTRFS_GC_INODE_ITEM_KEY, offset := 1 }

/-- A delete environment whose join succeeds and whose search is
error-free. -/
def delEnvOk : DeleteEnv := { join := .ok (), searchErr := none }

/-! ## C1: routing -/

/-- C1: the GC root that receives the `add()` of an inode's GC item is
the global root at index `inode_number mod nr_global_roots` of the GC
tree — exactly the root the dispatcher resolves at that index — and,
for a fixed `nr_global_roots`, routing is a pure function of the inode
number (two inodes with the same number route to the same root,
whatever their owning subvolumes). -/
theorem gc_c1_routing (fs : FsInfo) (inode i1 i2 : Inode) (env : AddEnv)
    (h : i1.ino = i2.ino) :
    (btrfs_add_inode_gc_item fs inode env).1 =
      dispatch_root_at fs (inode.ino % fs.nr_global_roots) ∧
    inode_gc_root fs i1 = inode_gc_root fs i2 := by
  constructor
  · rfl
  · simp [inode_gc_root, btrfs_global_root, h]

/-- C1 witness: inode 42 of subvolume 7 with 16 global roots routes to
the dispatcher's root at index 10, and an inode numbered 42 in
subvolume 9 routes identically. -/
theorem gc_c1_routing_witness :
    (btrfs_add_inode_gc_item ⟨16, fun k => k.offset⟩ ⟨42, 7⟩
        ⟨true, .ok (), 0⟩).1 =
      dispatch_root_at ⟨16, fun k => k.offset⟩ (42 % 16) ∧
    inode_gc_root ⟨16, fun k => k.offset⟩ ⟨42, 7⟩ =
      inode_gc_root ⟨16, fun k => k.offset⟩ ⟨42, 9⟩ :=
  gc_c1_routing ⟨16, fun k => k.offset⟩ ⟨42, 7⟩ ⟨42, 7⟩ ⟨42, 9⟩
    ⟨true, .ok (), 0⟩ rfl

/-! ## C2: behaviour of the drain loop on a failing item -/

/-- C2 counterexample: with the filesystem closing and a single GC
inode item whose processing always fails with `-5` (`-EIO`), two
iterations of the drain loop both attempt the same failing item: the
loop does not stop after the first failure, contradicting the claim
that the worker never re-attempts the same failing item within the
same dispatch. -/
theorem gc_c2_counterexample :
    (drain_loop true (fun _ _ => -5) (fun _ => delEnvOk) 2 0 [gcKeyA]).2 =
      [⟨gcKeyA, -5⟩, ⟨gcKeyA, -5⟩] ∧ (-5 : Int) ≠ 0 := by
  constructor
  · rfl
  · decide

/-- C2 amended: whenever processing the first item fails (`gc_inode`
or the unknown-kind branch returns a nonzero result), the item is left
in place (it is not deleted and remains the first item), but the drain
loop does not stop: it re-evaluates its condition and, while the
filesystem remains closing and the item is still present, re-attempts
the same item within the same dispatch. -/
theorem gc_c2_amended (gcRet : Nat → BtrfsKey → Int)
    (delEnv : Nat → DeleteEnv) (fuel n : Nat) (k : BtrfsKey)
    (rest : List BtrfsKey)
    (hfail : (if k.type = BTRFS_GC_INODE_ITEM_KEY then gcRet n k
              else -EINVAL) ≠ 0) :
    drain_loop true gcRet delEnv (fuel + 1) n (k :: rest) =
      ((drain_loop true gcRet delEnv fuel (n + 1) (k :: rest)).1,
        ⟨k, if k.type = BTRFS_GC_INODE_ITEM_KEY then gcRet n k
            else -EINVAL⟩ ::
          (drain_loop true gcRet delEnv fuel (n + 1) (k :: rest)).2) := by
  simp only [drain_loop, if_pos, if_neg hfail, if_true]

/-- C2 amended witness: one failing step on a concrete single-item
root leaves the item in place and recurses on the unchanged list. -/
theorem gc_c2_amended_witness :
    drain_loop true (fun _ _ => -5) (fun _ => delEnvOk) 2 0 [gcKeyA] =
      ((drain_loop true (fun _ _ => -5) (fun _ => delEnvOk) 1 1 [gcKeyA]).1,
        ⟨gcKeyA, if gcKeyA.type = BTRFS_GC_INODE_ITEM_KEY then -5
                 else -EINVAL⟩ ::
          (drain_loop true (fun _ _ => -5) (fun _ => delEnvOk) 1 1 [gcKeyA]).2) :=
  gc_c2_amended (fun _ _ => -5) (fun _ => delEnvOk) 1 0 gcKeyA []
    (by decide)

/-! ## C4: idempotent deletion -/

/-- C4: removing a GC item whose key is not present in the root is a
no-op for the caller: `delete_gc_item` surfaces no error (the C
function returns void, and the model emits no error value) and deletes
nothing — the root's items are unchanged and no mutation event is
emitted — when the exact-key search does not find the key. -/
theorem gc_c4_idempotent_delete (env : DeleteEnv) (items : List BtrfsKey)
    (key : BtrfsKey) (hjoin : env.join = .ok ())
    (hsearch : env.searchErr = none) (hmem : key ∉ items) :
    (delete_gc_item env items key).items = items ∧
    (delete_gc_item env items key).events = [] := by
  simp [delete_gc_item, hjoin, searchSlotRet, hsearch, hmem, ENOENT]

/-- C4 witness: deleting `gcKeyA` from a root holding only a different
key changes nothing and emits no event. -/
theorem gc_c4_idempotent_delete_witness :
    (delete_gc_item delEnvOk [⟨5, BTRFS_GC_INODE_ITEM_KEY, 2⟩]
        gcKeyA).items = [⟨5, BTRFS_GC_INODE_ITEM_KEY, 2⟩] ∧
    (delete_gc_item delEnvOk [⟨5, BTRFS_GC_INODE_ITEM_KEY, 2⟩]
        gcKeyA).events = [] :=
  gc_c4_idempotent_delete delEnvOk [⟨5, BTRFS_GC_INODE_ITEM_KEY, 2⟩]
    gcKeyA rfl rfl (by decide)

/-! ## C5: the retry loop of gc_inode -/

/-- Closed-form run of the `gc_inode` retry loop: if every iteration
before `m` (relative to the start index `i`) joins successfully and
truncates with a retryable result, and iteration `m` joins
successfully and truncates with a non-retryable result, then with
enough fuel the loop returns that result after exactly `m + 1`
transactions, each binding the temporary reservation for its
truncation and restoring the default budget before ending. -/
theorem gc_inode_loop_run (steps : Nat → GCStep) :
    ∀ (m fuel i : Nat),
    (∀ j, j < m → (steps (i + j)).join = .ok () ∧
        ((steps (i + j)).truncRet = -ENOSPC ∨
          (steps (i + j)).truncRet = -EAGAIN)) →
    m < fuel →
    (steps (i + m)).join = .ok () →
    ¬((steps (i + m)).truncRet = -ENOSPC ∨
        (steps (i + m)).truncRet = -EAGAIN) →
    gc_inode_loop steps fuel i =
      some ((steps (i + m)).truncRet, retryEvents i (m + 1)) := by
  intro m
  induction m with
  | zero =>
    intro fuel i _ hfuel hjoin hstop
    match fuel, hfuel with
    | f + 1, _ =>
      rw [Nat.add_zero] at hjoin hstop ⊢
      simp [gc_inode_loop, hjoin, hstop, retryEvents]
  | succ m ih =>
    intro fuel i hpre hfuel hjoin hstop
    match fuel, hfuel with
    | f + 1, hfuel =>
      have h0 := hpre 0 (Nat.succ_pos m)
      rw [Nat.add_zero] at h0
      have hpre2 : ∀ j, j < m → (steps (i + 1 + j)).join = .ok () ∧
          ((steps (i + 1 + j)).truncRet = -ENOSPC ∨
            (steps (i + 1 + j)).truncRet = -EAGAIN) := by
        intro j hj
        have := hpre (j + 1) (by omega)
        rwa [show i + (j + 1) = i + 1 + j by omega] at this
      have hjoin2 : (steps (i + 1 + m)).join = .ok () := by
        rwa [show i + (m + 1) = i + 1 + m by omega] at hjoin
      have hstop2 : ¬((steps (i + 1 + m)).truncRet = -ENOSPC ∨
          (steps (i + 1 + m)).truncRet = -EAGAIN) := by
        rwa [show i + (m + 1) = i + 1 + m by omega] at hstop
      have hrec := ih f (i + 1) hpre2 (by omega) hjoin2 hstop2
      rw [show i + (m + 1) = i + 1 + m by omega]
      simp [gc_inode_loop, h0.1, h0.2, hrec, retryEvents]

/-- C5: the truncation loop of `gc_inode` retries exactly while the
truncation engine returns `-ENOSPC` or `-EAGAIN`, opening a fresh
transaction and re-binding the reservation on each retry (each
iteration contributes a `truncate` event under the temporary
reservation and an `endTrans` event under the restored default); the
first other result — zero or a different error — ends the loop and is
returned. -/
theorem gc_c5_retry_loop (steps : Nat → GCStep) (m fuel : Nat)
    (hpre : ∀ j, j < m → (steps j).join = .ok () ∧
        ((steps j).truncRet = -ENOSPC ∨ (steps j).truncRet = -EAGAIN))
    (hfuel : m < fuel)
    (hjoin : (steps m).join = .ok ())
    (hstop : ¬((steps m).truncRet = -ENOSPC ∨
        (steps m).truncRet = -EAGAIN)) :
    gc_inode_loop steps fuel 0 =
      some ((steps m).truncRet, retryEvents 0 (m + 1)) := by
  have := gc_inode_loop_run steps m fuel 0
    (by intro j hj; simpa using hpre j hj) hfuel
    (by simpa using hjoin) (by simpa using hstop)
  simpa using this

/-- A concrete truncation schedule: `-ENOSPC`, then `-EAGAIN`, then
success, every join succeeding. -/
def stepsW : Nat → GCStep := fun j =>
  if j = 0 then { join := Except.ok (), truncRet := -ENOSPC }
  else if j = 1 then { join := Except.ok (), truncRet := -EAGAIN }
  else { join := Except.ok (), truncRet := 0 }

/-- C5 witness: under `stepsW` the loop runs three iterations and
returns 0 with the expected per-iteration events. -/
theorem gc_c5_retry_loop_witness :
    gc_inode_loop stepsW 3 0 =
      some ((stepsW 2).truncRet, retryEvents 0 (2 + 1)) :=
  gc_c5_retry_loop stepsW 2 3
    (by
      intro j hj
      interval_cases j <;> exact ⟨rfl, by decide⟩)
    (by omega) rfl (by decide)

/-! ## C6: root resolution in gc_inode -/

/-- C6: when resolving the owning subvolume root fails with `-ENOENT`,
`gc_inode` returns 0 without truncating and without logging, so the
worker goes on to delete the GC item; when the resolution fails with
any other error, `gc_inode` returns that error without any truncation
and the error is logged via `btrfs_err`; and in the worker's drain
loop an item is handed to `delete_gc_item` exactly when the processing
result is zero, otherwise it is left in place. -/
theorem gc_c6_root_resolution (steps : Nat → GCStep) (fuel : Nat)
    (e : Int) (he : e ≠ -ENOENT) (gcRet : Nat → BtrfsKey → Int)
    (delEnv : Nat → DeleteEnv) (n : Nat) (k : BtrfsKey)
    (rest : List BtrfsKey) (hk : k.type = BTRFS_GC_INODE_ITEM_KEY) :
    gc_inode (.error (-ENOENT)) steps fuel =
      some { ret := 0, events := [], logged := false, putRoot := false } ∧
    gc_inode (.error e) steps fuel =
      some { ret := e, events := [], logged := true, putRoot := false } ∧
    drain_loop true gcRet delEnv 1 n (k :: rest) =
      ((if gcRet n k = 0 then (delete_gc_item (delEnv n) (k :: rest) k).items
        else k :: rest), [⟨k, gcRet n k⟩]) := by
  refine ⟨by simp [gc_inode], by simp [gc_inode, he], ?_⟩
  by_cases h0 : gcRet n k = 0 <;> simp [drain_loop, hk, h0]

/-- C6 witness: resolution failing with `-ENOENT` yields success with
nothing done; failing with `-5` yields `-5`, logged, with no
truncation; and a first item whose processing returns `-5` is left in
place by the one-step drain. -/
theorem gc_c6_root_resolution_witness :
    gc_inode (.error (-ENOENT)) stepsW 1 =
      some { ret := 0, events := [], logged := false, putRoot := false } ∧
    gc_inode (.error (-5)) stepsW 1 =
      some { ret := -5, events := [], logged := true, putRoot := false } ∧
    drain_loop true (fun _ _ => -5) (fun _ => delEnvOk) 1 0 [gcKeyA] =
      ((if (fun _ _ => (-5 : Int)) 0 gcKeyA = 0 then
          (delete_gc_item ((fun _ => delEnvOk) 0) [gcKeyA] gcKeyA).items
        else [gcKeyA]), [⟨gcKeyA, (fun _ _ => (-5 : Int)) 0 gcKeyA⟩]) :=
  gc_c6_root_resolution stepsW 1 (-5) (by decide) (fun _ _ => -5)
    (fun _ => delEnvOk) 0 gcKeyA [] rfl

/-! ## C3: budget-pointer binding and restoration -/

/-- Shape of the event trace of `add_gc_item`: nothing on path
allocation failure, only the path free on join failure, and otherwise
an insert under the temporary reservation followed by an
end-transaction under the restored default. -/
theorem add_gc_item_events (env : AddEnv) (key : BtrfsKey) :
    (add_gc_item env key).events = [] ∨
    (add_gc_item env key).events = [Event.freePath] ∨
    (add_gc_item env key).events =
      [Event.insertItem RsvPtr.temp key, Event.endTrans RsvPtr.fsDefault,
        Event.freePath] := by
  unfold add_gc_item
  cases env.pathAlloc
  · exact Or.inl rfl
  · cases env.join
    · exact Or.inr (Or.inl rfl)
    · exact Or.inr (Or.inr rfl)

/-- Shape of the event trace of `delete_gc_item`: either nothing (join
failure, or search not finding the key or failing), or a deletion,
path release and end-transaction all under the budget pointer the join
left at the filesystem default. -/
theorem delete_gc_item_events (env : DeleteEnv) (items : List BtrfsKey)
    (key : BtrfsKey) :
    (delete_gc_item env items key).events = [] ∨
    (delete_gc_item env items key).events =
      [Event.delItem RsvPtr.fsDefault key, Event.releasePath,
        Event.endTrans RsvPtr.fsDefault] := by
  unfold delete_gc_item
  cases env.join
  · exact Or.inl rfl
  · dsimp only
    split <;> try split
    all_goals first
      | exact Or.inl rfl
      | exact Or.inr rfl

/-- Budget-pointer discipline of a single event: truncations run under
the temporary reservation, transaction ends run under the restored
filesystem default; other events are unconstrained. -/
def evRsvOk : Event → Prop
  | .truncate r _ => r = RsvPtr.temp
  | .endTrans r => r = RsvPtr.fsDefault
  | _ => True

/-- Every event list produced by the `gc_inode` retry loop runs its
truncations with the budget pointer bound to the temporary reservation
and ends each transaction with the budget pointer restored to the
filesystem default. -/
theorem gc_inode_loop_events_rsv (steps : Nat → GCStep) :
    ∀ (fuel i : Nat) (out : Int × List Event),
    gc_inode_loop steps fuel i = some out →
    ∀ ev ∈ out.2, evRsvOk ev := by
  intro fuel
  induction fuel with
  | zero => intro i out h; simp [gc_inode_loop] at h
  | succ f ih =>
    intro i out h
    rw [gc_inode_loop] at h
    rcases hj : (steps i).join with e | u <;> rw [hj] at h
    · simp only [Option.some.injEq] at h
      subst h
      intro ev hev
      simp at hev
    · simp only at h
      split at h
      · rcases hrec : gc_inode_loop steps f (i + 1) with _ | ⟨r, rest⟩ <;>
          rw [hrec] at h
        · exact absurd h (by simp)
        · simp only [List.cons_append, List.nil_append,
            Option.some.injEq] at h
          subst h
          intro ev hev
          rcases List.mem_cons.mp hev with h1 | hev2
          · subst h1; simp [evRsvOk]
          rcases List.mem_cons.mp hev2 with h2 | hev3
          · subst h2; simp [evRsvOk]
          · exact ih (i + 1) (r, rest) hrec ev hev3
      · simp only [Option.some.injEq] at h
        subst h
        intro ev hev
        rcases List.mem_cons.mp hev with h1 | hev2
        · subst h1; simp [evRsvOk]
        rcases List.mem_cons.mp hev2 with h2 | hev3
        · subst h2; simp [evRsvOk]
        · simp at hev3

/-- C3 counterexample: a `delete_gc_item` call that joins and finds
its key runs `btrfs_del_item` — a GC-item mutation — with the
transaction's budget pointer still at the filesystem default, never
bound to the caller-supplied temporary reservation, refuting the claim
that every transaction mutating a GC item is bound to the reservation
while doing the mutation. -/
theorem gc_c3_counterexample :
    (delete_gc_item delEnvOk [gcKeyA] gcKeyA).events =
      [Event.delItem RsvPtr.fsDefault gcKeyA, Event.releasePath,
        Event.endTrans RsvPtr.fsDefault] ∧
    RsvPtr.fsDefault ≠ RsvPtr.temp := by
  constructor
  · rfl
  · decide

/-- C3 amended: the transactions of `add_gc_item` and of `gc_inode`'s
truncation loop have their budget pointer bound to the caller-supplied
temporary reservation while doing the mutation and restored to the
filesystem default before the transaction is ended, on every path;
`delete_gc_item`, however, never binds the budget pointer to the
reservation — its deletion and its end-transaction both run under the
budget pointer the join left at the filesystem default. -/
theorem gc_c3_amended (aenv : AddEnv) (akey ak : BtrfsKey)
    (ar er : RsvPtr)
    (hai : Event.insertItem ar ak ∈ (add_gc_item aenv akey).events)
    (hae : Event.endTrans er ∈ (add_gc_item aenv akey).events)
    (steps : Nat → GCStep) (fuel i : Nat) (out : Int × List Event)
    (hloop : gc_inode_loop steps fuel i = some out)
    (tr : RsvPtr) (tj : Nat) (ht : Event.truncate tr tj ∈ out.2)
    (ler : RsvPtr) (hle : Event.endTrans ler ∈ out.2)
    (denv : DeleteEnv) (ditems : List BtrfsKey) (dkey dk : BtrfsKey)
    (dr : RsvPtr)
    (hd : Event.delItem dr dk ∈ (delete_gc_item denv ditems dkey).events) :
    ar = RsvPtr.temp ∧ er = RsvPtr.fsDefault ∧ tr = RsvPtr.temp ∧
    ler = RsvPtr.fsDefault ∧ dr = RsvPtr.fsDefault := by
  refine ⟨?_, ?_, ?_, ?_, ?_⟩
  · rcases add_gc_item_events aenv akey with h | h | h <;> rw [h] at hai <;>
      simp at hai
    exact hai.1
  · rcases add_gc_item_events aenv akey with h | h | h <;> rw [h] at hae <;>
      simp at hae
    exact hae
  · have := gc_inode_loop_events_rsv steps fuel i out hloop _ ht
    simpa [evRsvOk] using this
  · have := gc_inode_loop_events_rsv steps fuel i out hloop _ hle
    simpa [evRsvOk] using this
  · rcases delete_gc_item_events denv ditems dkey with h | h <;>
      rw [h] at hd <;> simp at hd
    exact hd.1

/-- C3 amended witness: a successful add inserts under the temporary
reservation and ends under the default; a one-iteration truncation
loop truncates under the temporary reservation and ends under the
default; a successful delete mutates under the default budget. -/
theorem gc_c3_amended_witness :
    RsvPtr.temp = RsvPtr.temp ∧ RsvPtr.fsDefault = RsvPtr.fsDefault ∧
    RsvPtr.temp = RsvPtr.temp ∧ RsvPtr.fsDefault = RsvPtr.fsDefault ∧
    RsvPtr.fsDefault = RsvPtr.fsDefault :=
  gc_c3_amended { pathAlloc := true, join := .ok (), insertRet := 0 }
    gcKeyA gcKeyA RsvPtr.temp RsvPtr.fsDefault (by decide) (by decide)
    (fun _ => { join := Except.ok (), truncRet := 0 }) 1 0
    (0, [Event.truncate RsvPtr.temp 0, Event.endTrans RsvPtr.fsDefault])
    (by decide) RsvPtr.temp 0 (by decide) RsvPtr.fsDefault (by decide)
    delEnvOk [gcKeyA] gcKeyA gcKeyA RsvPtr.fsDefault (by decide)

/-! ## C7: the running flag is always cleared -/

/-- A root index whose flag is clear, which is not yet queued and
whose descriptor allocation fails is left with a clear flag and
unqueued by any run of the dispatcher loop. -/
theorem dispatch_foldl_untouched (allocOk : Nat → Bool) (i : Nat)
    (ha : allocOk i = false) :
    ∀ (l : List Nat) (s : DispatchState),
    s.flags i = false → i ∉ s.queued →
    (l.foldl (dispatch_step allocOk) s).flags i = false ∧
      i ∉ (l.foldl (dispatch_step allocOk) s).queued := by
  intro l
  induction l with
  | nil => exact fun s hf hq => ⟨hf, hq⟩
  | cons j l ihl =>
    intro s hf hq
    rw [List.foldl_cons]
    refine ihl _ ?_ ?_
    · unfold dispatch_step
      by_cases hji : j = i
      · subst hji
        simp [hf, ha, upd]
      · cases hsj : s.flags j <;> cases haj : allocOk j <;>
          simp [hsj, haj, upd, Ne.symm hji, hf]
    · unfold dispatch_step
      by_cases hji : j = i
      · subst hji
        simp [hf, ha, hq]
      · cases hsj : s.flags j <;> cases haj : allocOk j <;>
          simp [hsj, haj, hq, Ne.symm hji, hji]

/-- C7: on every exit path of `gc_work_fn` — scratch-path allocation
failure, reservation allocation failure, or any drain outcome — the
root's `BTRFS_ROOT_GC_RUNNING` flag is cleared before the worker
returns; and when the dispatcher's descriptor allocation fails for a
root whose flag it had just set, the flag is cleared again and the
root is not enqueued. -/
theorem gc_c7_flag_cleared (pathAlloc rsvAlloc closing : Bool)
    (gcRet : Nat → BtrfsKey → Int) (delEnv : Nat → DeleteEnv)
    (fuel : Nat) (items : List BtrfsKey) (feature closing2 : Bool)
    (n : Nat) (allocOk : Nat → Bool) (flags0 : Nat → Bool) (i : Nat)
    (hf : flags0 i = false) (ha : allocOk i = false) :
    (gc_work_fn pathAlloc rsvAlloc closing gcRet delEnv fuel
        items).gcRunning = false ∧
    (btrfs_queue_gc_work feature closing2 n allocOk flags0).flags i =
      false ∧
    i ∉ (btrfs_queue_gc_work feature closing2 n allocOk flags0).queued := by
  refine ⟨?_, ?_, ?_⟩
  · cases pathAlloc <;> cases rsvAlloc <;> simp [gc_work_fn]
  · unfold btrfs_queue_gc_work
    cases feature
    · simpa using hf
    · cases closing2
      · simpa using
          (dispatch_foldl_untouched allocOk i ha (List.range n)
            ⟨flags0, []⟩ hf (by simp)).1
      · simpa using hf
  · unfold btrfs_queue_gc_work
    cases feature
    · simp
    · cases closing2
      · simpa using
          (dispatch_foldl_untouched allocOk i ha (List.range n)
            ⟨flags0, []⟩ hf (by simp)).2
      · simp

/-- C7 witness: with both allocations failing in the worker and
descriptor allocation failing in the dispatcher, the flag for root 0
ends up clear and root 0 is not enqueued. -/
theorem gc_c7_flag_cleared_witness :
    (gc_work_fn false false true (fun _ _ => 0) (fun _ => delEnvOk) 1
        [gcKeyA]).gcRunning = false ∧
    (btrfs_queue_gc_work true false 4 (fun _ => false)
        (fun _ => false)).flags 0 = false ∧
    0 ∉ (btrfs_queue_gc_work true false 4 (fun _ => false)
        (fun _ => false)).queued :=
  gc_c7_flag_cleared false false true (fun _ _ => 0) (fun _ => delEnvOk)
    1 [gcKeyA] true false 4 (fun _ => false) (fun _ => false) 0 rfl rfl

/-! ## C9: dispatch guard versus drain condition -/

/-- A drain loop run with the filesystem not closing performs zero
iterations: the items are untouched and the log is empty. -/
theorem drain_loop_not_closing (gcRet : Nat → BtrfsKey → Int)
    (delEnv : Nat → DeleteEnv) :
    ∀ (fuel n : Nat) (items : List BtrfsKey),
    drain_loop false gcRet delEnv fuel n items = (items, []) := by
  intro fuel
  cases fuel <;> intro n items <;> simp [drain_loop]

/-- C9: under a constant closing state, every worker enqueued by
`btrfs_queue_gc_work` processes zero items: the dispatcher only
enqueues when the filesystem is not closing, and a worker running with
the filesystem not closing drains nothing — its log is empty and the
root's items are unchanged. -/
theorem gc_c9_enqueued_drains_nothing (feature closing : Bool) (n : Nat)
    (allocOk : Nat → Bool) (flags0 : Nat → Bool) (i : Nat)
    (pathAlloc rsvAlloc : Bool) (gcRet : Nat → BtrfsKey → Int)
    (delEnv : Nat → DeleteEnv) (fuel : Nat) (items : List BtrfsKey)
    (hq : i ∈ (btrfs_queue_gc_work feature closing n allocOk
        flags0).queued) :
    closing = false ∧
    (gc_work_fn pathAlloc rsvAlloc closing gcRet delEnv fuel
        items).log = [] ∧
    (gc_work_fn pathAlloc rsvAlloc closing gcRet delEnv fuel
        items).items = items := by
  have hc : closing = false := by
    cases closing
    · rfl
    · unfold btrfs_queue_gc_work at hq
      cases feature <;> simp at hq
  subst hc
  refine ⟨rfl, ?_, ?_⟩ <;>
    cases pathAlloc <;> cases rsvAlloc <;>
      simp [gc_work_fn, drain_loop_not_closing]

/-- C9 witness: with the feature on and the filesystem not closing,
root 0 is enqueued, and the corresponding worker's drain loop touches
nothing. -/
theorem gc_c9_enqueued_drains_nothing_witness :
    false = false ∧
    (gc_work_fn true true false (fun _ _ => 0) (fun _ => delEnvOk) 3
        [gcKeyA]).log = [] ∧
    (gc_work_fn true true false (fun _ _ => 0) (fun _ => delEnvOk) 3
        [gcKeyA]).items = [gcKeyA] :=
  gc_c9_enqueued_drains_nothing true false 1 (fun _ => true)
    (fun _ => false) 0 true true (fun _ _ => 0) (fun _ => delEnvOk) 3
    [gcKeyA] (by decide)

/-! ## C10: the open-transaction path of delete_gc_item -/

/-- Every completed run of the `gc_inode` retry loop ends exactly as
many transactions as it opens for truncation: the counts of `endTrans`
and `truncate` events agree. -/
theorem gc_inode_loop_trans_balanced (steps : Nat → GCStep) :
    ∀ (fuel i : Nat) (r : Int) (evs : List Event),
    gc_inode_loop steps fuel i = some (r, evs) →
    evs.countP isEndTransEv = evs.countP isTruncateEv := by
  intro fuel
  induction fuel with
  | zero => intro i r evs h; simp [gc_inode_loop] at h
  | succ f ih =>
    intro i r evs h
    rw [gc_inode_loop] at h
    rcases hj : (steps i).join with e | u <;> rw [hj] at h
    · simp only [Option.some.injEq, Prod.mk.injEq] at h
      rw [← h.2]
      simp
    · simp only at h
      split at h
      · rcases hrec : gc_inode_loop steps f (i + 1) with _ | ⟨r2, rest⟩ <;>
          rw [hrec] at h
        · simp at h
        · simp only [List.cons_append, List.nil_append,
            Option.some.injEq, Prod.mk.injEq] at h
          rw [← h.2]
          have hrest := ih (i + 1) r2 rest hrec
          simp [List.countP_cons, isEndTransEv, isTruncateEv, hrest]
      · simp only [Option.some.injEq, Prod.mk.injEq] at h
        rw [← h.2]
        rfl

/-- C10: when the exact-key search of `delete_gc_item` returns a
nonzero result (key absent or search error), the function returns with
the transaction it joined left open and without releasing the search
path — its event trace is empty, containing in particular no
`endTrans` and no `releasePath` — unlike every other
transaction-opening path in the module: a successfully joined
`add_gc_item` always ends its transaction, a successful delete ends
its transaction, and the `gc_inode` loop ends one transaction per
truncation it starts. -/
theorem gc_c10_transaction_left_open (denv : DeleteEnv)
    (items : List BtrfsKey) (key : BtrfsKey)
    (hjoin : denv.join = Except.ok ())
    (hsearch : searchSlotRet items key denv.searchErr ≠ 0)
    (aenv : AddEnv) (akey : BtrfsKey) (hapath : aenv.pathAlloc = true)
    (hajoin : aenv.join = Except.ok ()) (denv2 : DeleteEnv)
    (items2 : List BtrfsKey) (key2 : BtrfsKey)
    (hjoin2 : denv2.join = Except.ok ())
    (hfound : searchSlotRet items2 key2 denv2.searchErr = 0)
    (steps : Nat → GCStep) (fuel i : Nat) (r : Int) (evs : List Event)
    (hloop : gc_inode_loop steps fuel i = some (r, evs)) :
    (delete_gc_item denv items key).events = [] ∧
    Event.endTrans RsvPtr.fsDefault ∈ (add_gc_item aenv akey).events ∧
    Event.endTrans RsvPtr.fsDefault ∈
      (delete_gc_item denv2 items2 key2).events ∧
    evs.countP isEndTransEv = evs.countP isTruncateEv := by
  refine ⟨?_, ?_, ?_, gc_inode_loop_trans_balanced steps fuel i r evs hloop⟩
  · have hneg : (if searchSlotRet items key denv.searchErr > 0 then -ENOENT
        else searchSlotRet items key denv.searchErr) < 0 := by
      rcases lt_trichotomy (searchSlotRet items key denv.searchErr) 0 with
        h | h | h
      · rw [if_neg (by omega)]; exact h
      · exact absurd h hsearch
      · rw [if_pos h]; norm_num [ENOENT]
    simp [delete_gc_item, hjoin, hneg]
  · simp [add_gc_item, hapath, hajoin]
  · have hnneg : ¬ (if searchSlotRet items2 key2 denv2.searchErr > 0 then
        -ENOENT else searchSlotRet items2 key2 denv2.searchErr) < 0 := by
      rw [hfound]
      norm_num
    simp [delete_gc_item, hjoin2, hnneg]

/-- C10 witness: deleting an absent key emits nothing; a successful
add and a successful delete both end their transactions; a completed
one-iteration loop ends as many transactions as it truncates. -/
theorem gc_c10_transaction_left_open_witness :
    (delete_gc_item delEnvOk [] gcKeyA).events = [] ∧
    Event.endTrans RsvPtr.fsDefault ∈
      (add_gc_item { pathAlloc := true, join := .ok (), insertRet := 0 }
        gcKeyA).events ∧
    Event.endTrans RsvPtr.fsDefault ∈
      (delete_gc_item delEnvOk [gcKeyA] gcKeyA).events ∧
    ([Event.truncate RsvPtr.temp 0,
        Event.endTrans RsvPtr.fsDefault] : List Event).countP isEndTransEv =
      ([Event.truncate RsvPtr.temp 0,
        Event.endTrans RsvPtr.fsDefault] : List Event).countP isTruncateEv :=
  gc_c10_transaction_left_open delEnvOk [] gcKeyA rfl (by decide)
    { pathAlloc := true, join := .ok (), insertRet := 0 } gcKeyA rfl rfl
    delEnvOk [gcKeyA] gcKeyA rfl (by decide)
    (fun _ => { join := Except.ok (), truncRet := 0 }) 1 0 0
    [Event.truncate RsvPtr.temp 0, Event.endTrans RsvPtr.fsDefault]
    (by decide)

/-! ## C8: at most one worker per root -/

/-- One protocol event preserves the per-root ownership invariant. -/
theorem sync_step_invariant (s t : SyncState) (hst : SyncStep s t)
    (ih : ∀ i : Nat, s.pending i + s.active i ≤ 1 ∧
        (s.flag i = true ↔ s.pending i + s.active i = 1)) :
    ∀ i : Nat, t.pending i + t.active i ≤ 1 ∧
        (t.flag i = true ↔ t.pending i + t.active i = 1) := by
  cases hst with
  | tas_success j hj =>
    intro i
    by_cases hij : i = j
    · subst hij
      obtain ⟨hle, hiff⟩ := ih i
      have h1 : ¬ (s.pending i + s.active i = 1) := fun hc =>
        Bool.false_ne_true (hj ▸ hiff.mpr hc)
      refine ⟨?_, ?_⟩ <;> simp [upd, updN] <;> omega
    · obtain ⟨hle, hiff⟩ := ih i
      simp only [upd, updN, if_neg hij]
      exact ⟨hle, hiff⟩
  | tas_skip j hj => exact ih
  | enqueue j hj =>
    intro i
    by_cases hij : i = j
    · subst hij
      obtain ⟨hle, hiff⟩ := ih i
      have hflag : s.flag i = true := hiff.mpr (by omega)
      refine ⟨?_, ?_⟩ <;> simp [updN, hflag] <;> omega
    · obtain ⟨hle, hiff⟩ := ih i
      simp only [updN, if_neg hij]
      exact ⟨hle, hiff⟩
  | alloc_fail j hj =>
    intro i
    by_cases hij : i = j
    · subst hij
      obtain ⟨hle, hiff⟩ := ih i
      refine ⟨?_, ?_⟩ <;> simp [upd, updN] <;> omega
    · obtain ⟨hle, hiff⟩ := ih i
      simp only [upd, updN, if_neg hij]
      exact ⟨hle, hiff⟩
  | worker_exit j hj =>
    intro i
    by_cases hij : i = j
    · subst hij
      obtain ⟨hle, hiff⟩ := ih i
      refine ⟨?_, ?_⟩ <;> simp [upd, updN] <;> omega
    · obtain ⟨hle, hiff⟩ := ih i
      simp only [upd, updN, if_neg hij]
      exact ⟨hle, hiff⟩

/-- Inductive invariant of the dispatch / worker-exit protocol: for
every root, at most one dispatcher-or-worker owns it, and the running
bit is set exactly when one does. -/
theorem sync_invariant : ∀ (s : SyncState), SyncReachable s → ∀ i : Nat,
    s.pending i + s.active i ≤ 1 ∧
    (s.flag i = true ↔ s.pending i + s.active i = 1) := by
  intro s h
  induction h with
  | init => intro i; simp [initSync]
  | step hr hst ih => exact sync_step_invariant _ _ hst ih

/-- C8: in every state reachable by any interleaving of dispatcher
test-and-set, enqueue, allocation-failure and worker-exit events, at
most one worker is active per root; and whenever a root's running flag
reads false — the only condition under which a dispatcher's
test-and-set can succeed and lead to an enqueue — no dispatcher owns
the root and no worker is active for it, so a new worker can only be
enqueued after the previous one cleared the flag on exit. -/
theorem gc_c8_mutual_exclusion (s : SyncState) (h : SyncReachable s)
    (i : Nat) :
    s.active i ≤ 1 ∧
    (s.flag i = false → s.pending i = 0 ∧ s.active i = 0) := by
  obtain ⟨hle, hiff⟩ := sync_invariant s h i
  refine ⟨by omega, fun hf => ?_⟩
  have h1 : ¬ (s.pending i + s.active i = 1) := fun hc => by
    rw [hf] at hiff
    exact Bool.false_ne_true (hiff.mpr hc)
  omega

/-- The state reached from `initSync` by a successful test-and-set on
root 0. -/
def syncAfterTas : SyncState :=
  { flag := upd initSync.flag 0 true
    pending := updN initSync.pending 0 (initSync.pending 0 + 1)
    active := initSync.active }

/-- C8 witness: after a successful test-and-set on root 0, at most one
worker is active for root 0 and the flag, read true, guards further
enqueues. -/
theorem gc_c8_mutual_exclusion_witness :
    syncAfterTas.active 0 ≤ 1 ∧
    (syncAfterTas.flag 0 = false →
      syncAfterTas.pending 0 = 0 ∧ syncAfterTas.active 0 = 0) :=
  gc_c8_mutual_exclusion syncAfterTas
    (SyncReachable.step SyncReachable.init
      (SyncStep.tas_success initSync 0 rfl)) 0

end GCTree
